import Mathlib

/-!
Verification of the image-base64-api conversion pipeline.

The development embeds the pipeline of `utils/file_utils.py` and
`services/image_service.py`:

* strings are `List Char`, byte strings are `List Nat` (every byte `< 256`);
* Python's `base64.b64decode` (the default, non-strict mode of CPython's
  `binascii.a2b_base64`: characters outside the alphabet are discarded before
  the padding check) is `pyB64Decode`; `base64.b64encode` is `b64encode`;
* the Pillow image codec is external to the repository, so the three places the
  code calls it — `Image.open` + `verify` inside the validators, `Image.open`
  inside the decode path, and `image.save` — are taken as explicit functional
  parameters (`imageOk`, `imageOpen`, `saveImage`); the random
  `str(uuid.uuid4())` is likewise a parameter `uuidStr`;
* the filesystem is an explicit association list `FS` threaded through the two
  service operations; `image.save` appends one entry to it.
-/

deriving instance DecidableEq for Except

/-- The value of a character in the standard Base64 alphabet (`A-Z`, `a-z`,
`0-9`, `+`, `/`), or `none` for every other character.  Mirrors CPython's
`table_a2b_base64`. -/
def b64Val (c : Char) : Option Nat :=
  let n := c.toNat
  if 65 ≤ n ∧ n ≤ 90 then some (n - 65)
  else if 97 ≤ n ∧ n ≤ 122 then some (n - 97 + 26)
  else if 48 ≤ n ∧ n ≤ 57 then some (n - 48 + 52)
  else if n = 43 then some 62
  else if n = 47 then some 63
  else none

/-- The character of the standard Base64 alphabet with value `n < 64`.
Mirrors CPython's `table_b2a_base64`. -/
def encChar (n : Nat) : Char :=
  if n < 26 then Char.ofNat (65 + n)
  else if n < 52 then Char.ofNat (97 + (n - 26))
  else if n < 62 then Char.ofNat (48 + (n - 52))
  else if n = 62 then '+'
  else '/'

/-- The state machine of CPython's `binascii.a2b_base64` with
`strict_mode=False`, the function `base64.b64decode` bottoms out in:
characters outside the alphabet are discarded; `=` is counted only once the
current quad already holds two data characters, and enough padding ends the
parse successfully (trailing input is ignored); input exhausted mid-quad is an
error, distinguishing the leftover-1 case as CPython does. -/
def a2bAux : List Char → Nat → Nat → Nat → List Nat → Except (List Char) (List Nat)
  | [], 0, _, _, acc => .ok acc.reverse
  | [], 1, _, _, _ =>
      .error "Invalid base64-encoded string: number of data characters (1) cannot be 1 more than a multiple of 4".data
  | [], _, _, _, _ => .error "Incorrect padding".data
  | c :: rest, quadPos, leftChar, pads, acc =>
    if c = '=' then
      if 2 ≤ quadPos then
        if 4 ≤ quadPos + (pads + 1) then .ok acc.reverse
        else a2bAux rest quadPos leftChar (pads + 1) acc
      else a2bAux rest quadPos leftChar pads acc
    else
      match b64Val c with
      | none => a2bAux rest quadPos leftChar pads acc
      | some d =>
        match quadPos with
        | 0 => a2bAux rest 1 d 0 acc
        | 1 => a2bAux rest 2 (d % 16) 0 ((leftChar * 4 + d / 16) :: acc)
        | 2 => a2bAux rest 3 (d % 4) 0 ((leftChar * 16 + d / 4) :: acc)
        | _ => a2bAux rest 0 0 0 ((leftChar * 64 + d) :: acc)

/-- `base64.b64decode` applied to a `str` argument: the string is first
encoded as ASCII (a non-ASCII character raises `ValueError`), then fed to
non-strict `binascii.a2b_base64` (`a2bAux`). -/
def pyB64Decode (s : List Char) : Except (List Char) (List Nat) :=
  if s.all (fun c => c.toNat ≤ 127) then a2bAux s 0 0 0 []
  else .error "string argument should contain only ASCII characters".data

/-- `base64.b64encode` followed by `.decode('utf-8')`: three input bytes per
four alphabet characters, the final group padded with `=`. -/
def b64encode : List Nat → List Char
  | [] => []
  | [b1] => [encChar (b1 / 4), encChar (b1 % 4 * 16), '=', '=']
  | [b1, b2] => [encChar (b1 / 4), encChar (b1 % 4 * 16 + b2 / 16),
                 encChar (b2 % 16 * 4), '=']
  | b1 :: b2 :: b3 :: rest =>
      encChar (b1 / 4) :: encChar (b1 % 4 * 16 + b2 / 16) ::
      encChar (b2 % 16 * 4 + b3 / 64) :: encChar (b3 % 64) :: b64encode rest

/-- Index of the last occurrence of `c` in `s` (Python's `str.rfind`),
`none` when absent. -/
def rfindIdx (c : Char) (s : List Char) : Option Nat :=
  match s.reverse.findIdx? (fun x => x = c) with
  | none => none
  | some j => some (s.length - 1 - j)

/-- `pathlib.PurePosixPath(s).name`: the last path component, after dropping
empty and `.` components (pathlib normalises those away). -/
def pathName (s : List Char) : List Char :=
  ((s.splitOn '/').filter (fun p => p ≠ [] ∧ p ≠ ['.'])).getLastD []

/-- `pathlib.PurePosixPath(s).suffix`: the part of the name from its last dot,
provided that dot is neither the first nor the last character of the name. -/
def pathSuffix (s : List Char) : List Char :=
  let name := pathName s
  match rfindIdx '.' name with
  | none => []
  | some i => if 0 < i ∧ i < name.length - 1 then name.drop i else []

/-- `pathlib.PurePosixPath(s).stem`: the name with `pathSuffix` removed. -/
def pathStem (s : List Char) : List Char :=
  let name := pathName s
  match rfindIdx '.' name with
  | none => name
  | some i => if 0 < i ∧ i < name.length - 1 then name.take i else name

/-- `os.path.splitext` on POSIX (`sep='/'`, no altsep): split at the last dot
when it lies after the last separator and the characters between the start of
the base name and that dot are not all dots; otherwise the extension is
empty. -/
def splitextPy (p : List Char) : List Char × List Char :=
  match rfindIdx '.' p with
  | none => (p, [])
  | some d =>
    let si : Nat := match rfindIdx '/' p with | none => 0 | some i => i + 1
    let sepBeforeDot : Bool := match rfindIdx '/' p with
      | none => true
      | some i => decide (i < d)
    if sepBeforeDot then
      if ((p.drop si).take (d - si)).any (fun c => c ≠ '.') then
        (p.take d, p.drop d)
      else (p, [])
    else (p, [])

/-- ASCII `str.lower` on one character (the extensions compared against are
ASCII, so the ASCII fragment of Python's Unicode lowering suffices). -/
def toLowerChar (c : Char) : Char :=
  if 'A' ≤ c ∧ c ≤ 'Z' then Char.ofNat (c.toNat + 32) else c

/-- ASCII `str.upper` on one character. -/
def toUpperChar (c : Char) : Char :=
  if 'a' ≤ c ∧ c ≤ 'z' then Char.ofNat (c.toNat - 32) else c

def lowerStr (s : List Char) : List Char := s.map toLowerChar

def upperStr (s : List Char) : List Char := s.map toUpperChar

/-- `str.replace(a, b)` for a single-character pattern. -/
def replaceChar (a b : Char) (s : List Char) : List Char :=
  s.map (fun c => if c = a then b else c)

/-- The `dangerous_chars` list of `sanitize_filename`. -/
def dangerous_chars : List Char := ['<', '>', ':', '"', '|', '?', '*', '\\', '/']

/-- The replacement loop of `sanitize_filename`: each dangerous character is
replaced by an underscore, in the order of `dangerous_chars`. -/
def replaceDangerous (s : List Char) : List Char :=
  dangerous_chars.foldl (fun acc ch => replaceChar ch '_' acc) s

/-- `file_utils.sanitize_filename`: replace the dangerous characters with
underscores, then if the result exceeds 100 characters, truncate the
`os.path.splitext` name part to 95 characters and re-append the extension. -/
def sanitize_filename (filename : List Char) : List Char :=
  let sanitized := replaceDangerous filename
  if 100 < sanitized.length then
    let ne := splitextPy sanitized
    ne.1.take 95 ++ ne.2
  else sanitized

/-- `file_utils.generate_unique_filename`.  `uuidStr` stands for
`str(uuid.uuid4())` (36 characters at runtime); the code keeps its first 8
characters.  When no `extension` is passed the original filename's suffix is
used; the stem of the original filename, an underscore, the unique id and the
extension are concatenated. -/
def generate_unique_filename (uuidStr : List Char) (original_filename : List Char)
    (extension : Option (List Char)) : List Char :=
  let ext := match extension with
    | none => pathSuffix original_filename
    | some e => e
  pathStem original_filename ++ '_' :: uuidStr.take 8 ++ ext

/-- The `allowed_extensions` set of `validate_image_file` (iteration order of
the Python `set` is irrelevant: only membership is used). -/
def allowed_extensions : List (List Char) :=
  [".jpg".data, ".jpeg".data, ".png".data, ".gif".data, ".bmp".data, ".tiff".data]

/-- `file_utils.validate_image_file`.  `imageOk` stands for
`Image.open(io.BytesIO(content)); image.verify()`: `.ok ()` when Pillow
accepts the bytes, `.error e` when it raises with message `e`.  The extension
check runs first; the Pillow call is wrapped in try/except.  (The Python error
message interpolates the `set` in its unspecified iteration order; one order
is fixed here.) -/
def validate_image_file (imageOk : List Nat → Except (List Char) Unit)
    (file_content : List Nat) (filename : List Char) : Bool × Option (List Char) :=
  let file_extension := lowerStr (pathSuffix filename)
  if file_extension ∈ allowed_extensions then
    match imageOk file_content with
    | .ok _ => (true, none)
    | .error e => (false, some ("Invalid image file: ".data ++ e))
  else
    (false, some "Unsupported file format. Allowed formats: .jpg, .jpeg, .png, .gif, .bmp, .tiff".data)

/-- `file_utils.validate_base64_string`: inside one try/except, `b64decode`
then `Image.open` + `verify` (the latter abstracted as `imageOk`); any raise
becomes `(False, "Invalid Base64 string or not a valid image: " + str(e))`. -/
def validate_base64_string (imageOk : List Nat → Except (List Char) Unit)
    (base64_string : List Char) : Bool × Option (List Char) :=
  match pyB64Decode base64_string with
  | .error e => (false, some ("Invalid Base64 string or not a valid image: ".data ++ e))
  | .ok decoded_data =>
    match imageOk decoded_data with
    | .error e => (false, some ("Invalid Base64 string or not a valid image: ".data ++ e))
    | .ok _ => (true, none)

/-- The `(success, error_message, result_data)` triple every service
operation returns. -/
structure ConversionResult (α : Type) where
  success : Bool
  error : Option (List Char)
  data : Option α
deriving DecidableEq

/-- The `result_data` dictionary of `encode_image_to_base64`. -/
structure EncodeData where
  base64_string : List Char
  original_filename : List Char
  file_size : Nat
deriving DecidableEq

/-- The `result_data` dictionary of `decode_base64_to_image`. -/
structure DecodeData where
  message : List Char
  file_path : List Char
  filename : List Char
deriving DecidableEq

/-- What the service model knows of a `PIL.Image` object: its `format`
attribute (`None` for a frame-less source). -/
structure PILImage where
  format : Option (List Char)
deriving DecidableEq

/-- The filesystem under the output directory: a list of
(path, file bytes) pairs, most recent first. -/
def FS : Type := List (List Char × List Nat)

instance : DecidableEq FS := inferInstanceAs (DecidableEq (List (List Char × List Nat)))

/-- `ImageService._get_extension_from_format`'s dictionary. -/
def format_to_extension : List (List Char × List Char) :=
  [("JPEG".data, ".jpg".data), ("PNG".data, ".png".data), ("GIF".data, ".gif".data),
   ("BMP".data, ".bmp".data), ("TIFF".data, ".tiff".data), ("WEBP".data, ".webp".data)]

/-- `ImageService._get_extension_from_format`: upper-case the format name,
look it up, default to `".png"`. -/
def get_extension_from_format (format_name : List Char) : List Char :=
  match format_to_extension.find? (fun p => p.1 = upperStr format_name) with
  | some p => p.2
  | none => ".png".data

/-- `image.format or 'PNG'` at line 87 of the service: Python's `or` also
replaces an *empty* format string, not only `None`. -/
def formatOrPNG (image : PILImage) : List Char :=
  match image.format with
  | none => "PNG".data
  | some f => if f = [] then "PNG".data else f

/-- Lines 90–95 of `decode_base64_to_image`: `if not filename:` (which is
also taken for the empty string) yields `decoded_image{ext}`; a filename
without a suffix gets the derived extension appended; a filename with a
suffix is passed through unchanged. -/
def resolveFilename (filename : Option (List Char)) (format_extension : List Char) :
    List Char :=
  match filename with
  | none => "decoded_image".data ++ format_extension
  | some f =>
    if f = [] then "decoded_image".data ++ format_extension
    else if pathSuffix f = [] then f ++ format_extension
    else f

/-- `ImageService.encode_image_to_base64`.  After validation nothing in the
`try` block can raise (`b64encode` and `len` are total on `bytes`), so the
`except` arm is unreachable and the body is direct.  The filesystem is
threaded to record that the operation never touches it. -/
def encode_image_to_base64 (imageOk : List Nat → Except (List Char) Unit)
    (fs : FS) (file_content : List Nat) (filename : List Char) :
    FS × ConversionResult EncodeData :=
  let v := validate_image_file imageOk file_content filename
  if v.1 then
    (fs, { success := true, error := none,
           data := some { base64_string := b64encode file_content,
                          original_filename := filename,
                          file_size := file_content.length } })
  else
    (fs, { success := false, error := v.2, data := none })

/-- The `try` block of `ImageService.decode_base64_to_image`, with each
operation that can raise made explicit in `Except`:

1. `validate_base64_string` (returns a failure triple, it does not raise);
2. `base64.b64decode` again on the same string;
3. `Image.open` (`imageOpen`, returning the object's `format`);
4. the extension table, filename resolution, `sanitize_filename`,
   `generate_unique_filename`, and `self.outputs_dir / unique_filename`;
5. `image.save(file_path, format=image.format)` (`saveImage`, given the image
   object and the decoded bytes, returns the re-serialised bytes Pillow
   writes, or raises). -/
def decodeBody (imageOk : List Nat → Except (List Char) Unit)
    (imageOpen : List Nat → Except (List Char) PILImage)
    (saveImage : PILImage → List Nat → Except (List Char) (List Nat))
    (uuidStr : List Char) (fs : FS) (base64_string : List Char)
    (filename : Option (List Char)) :
    Except (List Char) (FS × ConversionResult DecodeData) :=
  let v := validate_base64_string imageOk base64_string
  if v.1 = false then .ok (fs, { success := false, error := v.2, data := none })
  else
    match pyB64Decode base64_string with
    | .error e => .error e
    | .ok image_data =>
      match imageOpen image_data with
      | .error e => .error e
      | .ok image =>
        let format_extension := get_extension_from_format (formatOrPNG image)
        let filename1 := resolveFilename filename format_extension
        let filename2 := sanitize_filename filename1
        let unique_filename := generate_unique_filename uuidStr filename2 (some format_extension)
        let file_path := "outputs/".data ++ unique_filename
        match saveImage image image_data with
        | .error e => .error e
        | .ok written =>
          .ok ((file_path, written) :: fs,
               { success := true, error := none,
                 data := some { message := "Image successfully decoded and saved".data,
                                file_path := file_path,
                                filename := unique_filename } })

/-- `ImageService.decode_base64_to_image`: the `try` body with the `except`
arm turning any raise `e` into
`(False, "Error decoding Base64 to image: " + str(e), None)` and leaving the
filesystem untouched. -/
def decode_base64_to_image (imageOk : List Nat → Except (List Char) Unit)
    (imageOpen : List Nat → Except (List Char) PILImage)
    (saveImage : PILImage → List Nat → Except (List Char) (List Nat))
    (uuidStr : List Char) (fs : FS) (base64_string : List Char)
    (filename : Option (List Char)) : FS × ConversionResult DecodeData :=
  match decodeBody imageOk imageOpen saveImage uuidStr fs base64_string filename with
  | .ok r => r
  | .error e =>
    (fs, { success := false,
           error := some ("Error decoding Base64 to image: ".data ++ e),
           data := none })

/-! Helper lemmas about `sanitize_filename`. -/

lemma mem_replaceChar {c a b : Char} {s : List Char} (h : c ∈ replaceChar a b s) :
    c = b ∨ (c ∈ s ∧ c ≠ a) := by
  unfold replaceChar at h
  rcases List.mem_map.1 h with ⟨x, hx, hfx⟩
  by_cases hxa : x = a
  · subst hxa
    simp only [if_pos rfl] at hfx
    exact Or.inl hfx.symm
  · rw [if_neg hxa] at hfx
    subst hfx
    exact Or.inr ⟨hx, hxa⟩

lemma mem_foldl_replaceChar : ∀ (ds s : List Char) (c : Char),
    c ∈ ds.foldl (fun acc ch => replaceChar ch '_' acc) s → c = '_' ∨ (c ∈ s ∧ c ∉ ds)
  | [], _, _, h => Or.inr ⟨h, by simp⟩
  | d :: tl, s, c, h => by
    rw [List.foldl_cons] at h
    rcases mem_foldl_replaceChar tl (replaceChar d '_' s) c h with h' | ⟨hmem, htl⟩
    · exact Or.inl h'
    · rcases mem_replaceChar hmem with h2 | ⟨hs, hne⟩
      · exact Or.inl h2
      · exact Or.inr ⟨hs, by simp [hne, htl]⟩

lemma foldl_replaceChar_eq_self : ∀ (ds s : List Char), (∀ c ∈ s, c ∉ ds) →
    ds.foldl (fun acc ch => replaceChar ch '_' acc) s = s
  | [], _, _ => rfl
  | d :: tl, s, h => by
    have hd : replaceChar d '_' s = s := by
      unfold replaceChar
      have : ∀ c ∈ s, (if c = d then '_' else c) = id c := by
        intro c hc
        have : c ≠ d := fun hcd => h c hc (hcd ▸ List.mem_cons_self d tl)
        simp [this]
      rw [List.map_congr_left this, List.map_id]
    rw [List.foldl_cons, hd]
    exact foldl_replaceChar_eq_self tl s
      (fun c hc hmem => h c hc (List.mem_cons_of_mem _ hmem))

lemma splitext_fst_append_snd (p : List Char) :
    (splitextPy p).1 ++ (splitextPy p).2 = p := by
  unfold splitextPy
  cases h : rfindIdx '.' p with
  | none => simp
  | some d =>
    simp only
    split
    · split
      · simp [List.take_append_drop]
      · simp
    · simp

lemma mem_sanitize {x : List Char} {c : Char} (h : c ∈ sanitize_filename x) :
    c ∈ replaceDangerous x := by
  unfold sanitize_filename at h
  simp only at h
  by_cases hl : 100 < (replaceDangerous x).length
  · rw [if_pos hl] at h
    rcases List.mem_append.1 h with h1 | h2
    · have h1' : c ∈ (splitextPy (replaceDangerous x)).1 := List.take_subset _ _ h1
      have : c ∈ (splitextPy (replaceDangerous x)).1 ++ (splitextPy (replaceDangerous x)).2 :=
        List.mem_append.2 (Or.inl h1')
      rwa [splitext_fst_append_snd] at this
    · have : c ∈ (splitextPy (replaceDangerous x)).1 ++ (splitextPy (replaceDangerous x)).2 :=
        List.mem_append.2 (Or.inr h2)
      rwa [splitext_fst_append_snd] at this
  · rw [if_neg hl] at h
    exact h

lemma sanitize_no_dangerous (x : List Char) (c : Char) (hc : c ∈ dangerous_chars) :
    c ∉ sanitize_filename x := by
  intro h
  have h1 : c ∈ dangerous_chars.foldl (fun acc ch => replaceChar ch '_' acc) x :=
    mem_sanitize h
  rcases mem_foldl_replaceChar dangerous_chars x c h1 with h2 | ⟨_, hnd⟩
  · subst h2
    revert hc
    decide
  · exact hnd hc

lemma sanitize_eq_of_fixed {y : List Char} (hy : replaceDangerous y = y)
    (hlen : y.length ≤ 100) : sanitize_filename y = y := by
  unfold sanitize_filename
  simp only [hy]
  rw [if_neg (by omega)]

lemma replaceDangerous_sanitize (x : List Char) :
    replaceDangerous (sanitize_filename x) = sanitize_filename x :=
  foldl_replaceChar_eq_self dangerous_chars _
    (fun c hc hcd => sanitize_no_dangerous x c hcd hc)

/-! Helper lemmas for the Base64 round trip. -/

lemma encChar_fin : ∀ n : Fin 64,
    b64Val (encChar n.val) = some n.val ∧ encChar n.val ≠ '=' ∧ (encChar n.val).toNat ≤ 127 := by
  decide

lemma b64Val_encChar {n : Nat} (h : n < 64) : b64Val (encChar n) = some n :=
  (encChar_fin ⟨n, h⟩).1

lemma encChar_ne_pad {n : Nat} (h : n < 64) : encChar n ≠ '=' :=
  (encChar_fin ⟨n, h⟩).2.1

lemma encChar_ascii {n : Nat} (h : n < 64) : (encChar n).toNat ≤ 127 :=
  (encChar_fin ⟨n, h⟩).2.2

lemma a2b_val0 {c : Char} {d : Nat} (hne : c ≠ '=') (hv : b64Val c = some d)
    (rest : List Char) (left pads : Nat) (acc : List Nat) :
    a2bAux (c :: rest) 0 left pads acc = a2bAux rest 1 d 0 acc := by
  simp [a2bAux, hne, hv]

lemma a2b_val1 {c : Char} {d : Nat} (hne : c ≠ '=') (hv : b64Val c = some d)
    (rest : List Char) (left pads : Nat) (acc : List Nat) :
    a2bAux (c :: rest) 1 left pads acc
      = a2bAux rest 2 (d % 16) 0 ((left * 4 + d / 16) :: acc) := by
  simp [a2bAux, hne, hv]

lemma a2b_val2 {c : Char} {d : Nat} (hne : c ≠ '=') (hv : b64Val c = some d)
    (rest : List Char) (left pads : Nat) (acc : List Nat) :
    a2bAux (c :: rest) 2 left pads acc
      = a2bAux rest 3 (d % 4) 0 ((left * 16 + d / 4) :: acc) := by
  simp [a2bAux, hne, hv]

lemma a2b_val3 {c : Char} {d : Nat} (hne : c ≠ '=') (hv : b64Val c = some d)
    (rest : List Char) (left pads : Nat) (acc : List Nat) :
    a2bAux (c :: rest) 3 left pads acc
      = a2bAux rest 0 0 0 ((left * 64 + d) :: acc) := by
  simp [a2bAux, hne, hv]

lemma a2b_pad2_first (rest : List Char) (left : Nat) (acc : List Nat) :
    a2bAux ('=' :: rest) 2 left 0 acc = a2bAux rest 2 left 1 acc := by
  simp [a2bAux]

lemma a2b_pad2_second (rest : List Char) (left : Nat) (acc : List Nat) :
    a2bAux ('=' :: rest) 2 left 1 acc = .ok acc.reverse := by
  simp [a2bAux]

lemma a2b_pad3 (rest : List Char) (left : Nat) (acc : List Nat) :
    a2bAux ('=' :: rest) 3 left 0 acc = .ok acc.reverse := by
  simp [a2bAux]

/-- Non-strict `a2b_base64` inverts `b64encode`, with an arbitrary
accumulator of already-emitted bytes. -/
theorem a2b_b64encode : ∀ (bs : List Nat), (∀ b ∈ bs, b < 256) → ∀ acc : List Nat,
    a2bAux (b64encode bs) 0 0 0 acc = .ok (acc.reverse ++ bs)
  | [], _, acc => by simp [b64encode, a2bAux]
  | [b1], h, acc => by
    have hb1 : b1 < 256 := h b1 (by simp)
    have h1 : b1 / 4 < 64 := by omega
    have h2 : b1 % 4 * 16 < 64 := by omega
    rw [b64encode, a2b_val0 (encChar_ne_pad h1) (b64Val_encChar h1),
        a2b_val1 (encChar_ne_pad h2) (b64Val_encChar h2),
        a2b_pad2_first, a2b_pad2_second,
        show b1 / 4 * 4 + b1 % 4 * 16 / 16 = b1 by omega]
    simp
  | [b1, b2], h, acc => by
    have hb1 : b1 < 256 := h b1 (by simp)
    have hb2 : b2 < 256 := h b2 (by simp)
    have h1 : b1 / 4 < 64 := by omega
    have h2 : b1 % 4 * 16 + b2 / 16 < 64 := by omega
    have h3 : b2 % 16 * 4 < 64 := by omega
    rw [b64encode, a2b_val0 (encChar_ne_pad h1) (b64Val_encChar h1),
        a2b_val1 (encChar_ne_pad h2) (b64Val_encChar h2),
        a2b_val2 (encChar_ne_pad h3) (b64Val_encChar h3),
        a2b_pad3,
        show b1 / 4 * 4 + (b1 % 4 * 16 + b2 / 16) / 16 = b1 by omega,
        show (b1 % 4 * 16 + b2 / 16) % 16 * 16 + b2 % 16 * 4 / 4 = b2 by omega]
    simp
  | b1 :: b2 :: b3 :: rest, h, acc => by
    have hb1 : b1 < 256 := h b1 (by simp)
    have hb2 : b2 < 256 := h b2 (by simp)
    have hb3 : b3 < 256 := h b3 (by simp)
    have h1 : b1 / 4 < 64 := by omega
    have h2 : b1 % 4 * 16 + b2 / 16 < 64 := by omega
    have h3 : b2 % 16 * 4 + b3 / 64 < 64 := by omega
    have h4 : b3 % 64 < 64 := by omega
    rw [b64encode, a2b_val0 (encChar_ne_pad h1) (b64Val_encChar h1),
        a2b_val1 (encChar_ne_pad h2) (b64Val_encChar h2),
        a2b_val2 (encChar_ne_pad h3) (b64Val_encChar h3),
        a2b_val3 (encChar_ne_pad h4) (b64Val_encChar h4),
        show b1 / 4 * 4 + (b1 % 4 * 16 + b2 / 16) / 16 = b1 by omega,
        show (b1 % 4 * 16 + b2 / 16) % 16 * 16 + (b2 % 16 * 4 + b3 / 64) / 4 = b2 by omega,
        show (b2 % 16 * 4 + b3 / 64) % 4 * 64 + b3 % 64 = b3 by omega,
        a2b_b64encode rest (fun b hb => h b (by simp [hb])) (b3 :: b2 :: b1 :: acc)]
    simp

/-- Everything `b64encode` emits is ASCII. -/
theorem b64encode_ascii : ∀ (bs : List Nat), (∀ b ∈ bs, b < 256) →
    ∀ c ∈ b64encode bs, c.toNat ≤ 127
  | [], _, c, hc => by simp [b64encode] at hc
  | [b1], h, c, hc => by
    have hb1 : b1 < 256 := h b1 (by simp)
    simp only [b64encode, List.mem_cons, List.not_mem_nil, or_false] at hc
    rcases hc with rfl | rfl | rfl | rfl
    · exact encChar_ascii (by omega)
    · exact encChar_ascii (by omega)
    · decide
    · decide
  | [b1, b2], h, c, hc => by
    have hb1 : b1 < 256 := h b1 (by simp)
    have hb2 : b2 < 256 := h b2 (by simp)
    simp only [b64encode, List.mem_cons, List.not_mem_nil, or_false] at hc
    rcases hc with rfl | rfl | rfl | rfl
    · exact encChar_ascii (by omega)
    · exact encChar_ascii (by omega)
    · exact encChar_ascii (by omega)
    · decide
  | b1 :: b2 :: b3 :: rest, h, c, hc => by
    have hb1 : b1 < 256 := h b1 (by simp)
    have hb2 : b2 < 256 := h b2 (by simp)
    have hb3 : b3 < 256 := h b3 (by simp)
    simp only [b64encode, List.mem_cons] at hc
    rcases hc with rfl | rfl | rfl | rfl | hc
    · exact encChar_ascii (by omega)
    · exact encChar_ascii (by omega)
    · exact encChar_ascii (by omega)
    · exact encChar_ascii (by omega)
    · exact b64encode_ascii rest (fun b hb => h b (by simp [hb])) c hc

/-- `base64.b64decode` is a byte-exact left inverse of `base64.b64encode`. -/
theorem pyB64Decode_b64encode (bs : List Nat) (h : ∀ b ∈ bs, b < 256) :
    pyB64Decode (b64encode bs) = .ok bs := by
  have hall : (b64encode bs).all (fun c => c.toNat ≤ 127) = true := by
    rw [List.all_eq_true]
    intro c hc
    simpa using b64encode_ascii bs h c hc
  rw [pyB64Decode, if_pos hall]
  simpa using a2b_b64encode bs h []

/-! Result-shape helpers. -/

/-- The `ConversionResult` invariant: on success the data is populated and
the error absent, on failure the error is populated and the data absent. -/
def resultOk {α : Type} (r : ConversionResult α) : Prop :=
  (r.success = true ∧ r.error = none ∧ r.data.isSome = true) ∨
  (r.success = false ∧ r.error.isSome = true ∧ r.data = none)

lemma validate_image_shape (imageOk : List Nat → Except (List Char) Unit)
    (content : List Nat) (filename : List Char) :
    validate_image_file imageOk content filename = (true, none) ∨
    ∃ m, validate_image_file imageOk content filename = (false, some m) := by
  unfold validate_image_file
  by_cases hext : lowerStr (pathSuffix filename) ∈ allowed_extensions
  · simp only [if_pos hext]
    cases himg : imageOk content with
    | ok u => exact Or.inl rfl
    | error e => exact Or.inr ⟨_, rfl⟩
  · simp only [if_neg hext]
    exact Or.inr ⟨_, rfl⟩

lemma validate_b64_shape (imageOk : List Nat → Except (List Char) Unit)
    (s : List Char) :
    validate_base64_string imageOk s = (true, none) ∨
    ∃ m, validate_base64_string imageOk s = (false, some m) := by
  unfold validate_base64_string
  cases hdec : pyB64Decode s with
  | error e => exact Or.inr ⟨_, rfl⟩
  | ok bytes =>
    cases himg : imageOk bytes with
    | ok u => exact Or.inl (by simp [himg])
    | error e =>
      exact Or.inr ⟨"Invalid Base64 string or not a valid image: ".data ++ e, by simp [himg]⟩

lemma encode_resultOk (imageOk : List Nat → Except (List Char) Unit)
    (fs : FS) (content : List Nat) (filename : List Char) :
    resultOk (encode_image_to_base64 imageOk fs content filename).2 := by
  unfold encode_image_to_base64
  rcases validate_image_shape imageOk content filename with h | ⟨m, h⟩ <;>
    simp [h, resultOk]

lemma decode_resultOk (imageOk : List Nat → Except (List Char) Unit)
    (imageOpen : List Nat → Except (List Char) PILImage)
    (saveImage : PILImage → List Nat → Except (List Char) (List Nat))
    (uuidStr : List Char) (fs : FS) (s : List Char) (fn : Option (List Char)) :
    resultOk (decode_base64_to_image imageOk imageOpen saveImage uuidStr fs s fn).2 := by
  unfold decode_base64_to_image decodeBody
  rcases validate_b64_shape imageOk s with h | ⟨m, h⟩
  · cases hdec : pyB64Decode s with
    | error e => simp [h, hdec, resultOk]
    | ok bytes =>
      cases hopen : imageOpen bytes with
      | error e => simp [h, hdec, hopen, resultOk]
      | ok image =>
        cases hsave : saveImage image bytes with
        | error e => simp [h, hdec, hopen, hsave, resultOk]
        | ok written => simp [h, hdec, hopen, hsave, resultOk]
  · simp [h, resultOk]

/-- The success path of `decode_base64_to_image`, fully explicit. -/
lemma decode_success {imageOk : List Nat → Except (List Char) Unit}
    {imageOpen : List Nat → Except (List Char) PILImage}
    {saveImage : PILImage → List Nat → Except (List Char) (List Nat)}
    {s : List Char} {bytes : List Nat} {image : PILImage} {written : List Nat}
    (uuidStr : List Char) (fs : FS) (fn : Option (List Char))
    (hval : validate_base64_string imageOk s = (true, none))
    (hdec : pyB64Decode s = .ok bytes)
    (hopen : imageOpen bytes = .ok image)
    (hsave : saveImage image bytes = .ok written) :
    decode_base64_to_image imageOk imageOpen saveImage uuidStr fs s fn =
      (("outputs/".data ++ generate_unique_filename uuidStr
          (sanitize_filename (resolveFilename fn (get_extension_from_format (formatOrPNG image))))
          (some (get_extension_from_format (formatOrPNG image))), written) :: fs,
       { success := true, error := none,
         data := some { message := "Image successfully decoded and saved".data,
                        file_path := "outputs/".data ++ generate_unique_filename uuidStr
                          (sanitize_filename (resolveFilename fn
                            (get_extension_from_format (formatOrPNG image))))
                          (some (get_extension_from_format (formatOrPNG image))),
                        filename := generate_unique_filename uuidStr
                          (sanitize_filename (resolveFilename fn
                            (get_extension_from_format (formatOrPNG image))))
                          (some (get_extension_from_format (formatOrPNG image))) } }) := by
  unfold decode_base64_to_image decodeBody
  simp [hval, hdec, hopen, hsave]

/-- Success of `decode_base64_to_image` happens only on the explicit path of
`decode_success`. -/
lemma decode_success_inv {imageOk : List Nat → Except (List Char) Unit}
    {imageOpen : List Nat → Except (List Char) PILImage}
    {saveImage : PILImage → List Nat → Except (List Char) (List Nat)}
    {uuidStr : List Char} {fs : FS} {s : List Char} {fn : Option (List Char)}
    (h : (decode_base64_to_image imageOk imageOpen saveImage uuidStr fs s fn).2.success = true) :
    ∃ bytes image written,
      validate_base64_string imageOk s = (true, none) ∧
      pyB64Decode s = .ok bytes ∧ imageOpen bytes = .ok image ∧
      saveImage image bytes = .ok written := by
  rcases validate_b64_shape imageOk s with hval | ⟨m, hval⟩
  · cases hdec : pyB64Decode s with
    | error e =>
      exfalso
      unfold decode_base64_to_image decodeBody at h
      simp [hval, hdec] at h
    | ok bytes =>
      cases hopen : imageOpen bytes with
      | error e =>
        exfalso
        unfold decode_base64_to_image decodeBody at h
        simp [hval, hdec, hopen] at h
      | ok image =>
        cases hsave : saveImage image bytes with
        | error e =>
          exfalso
          unfold decode_base64_to_image decodeBody at h
          simp [hval, hdec, hopen, hsave] at h
        | ok written =>
          refine ⟨bytes, image, written, hval, ?_, ?_, ?_⟩ <;> simp [hdec, hopen, hsave]
  · exfalso
    unfold decode_base64_to_image decodeBody at h
    simp [hval] at h

lemma generate_unique_eq (uuidStr orig ext : List Char) :
    generate_unique_filename uuidStr orig (some ext)
      = pathStem orig ++ '_' :: uuidStr.take 8 ++ ext := rfl

lemma suffix_generate_unique (uuidStr orig ext : List Char) :
    ext <:+ generate_unique_filename uuidStr orig (some ext) := by
  rw [generate_unique_eq]
  exact List.suffix_append _ _

/-! The claims. -/

/-- C1 (counterexample): the Base64 validator does not reject every string
containing a character outside the Base64 alphabet.  A space is not in the
alphabet, yet `"aG k="` — when the decoded bytes satisfy the image check —
validates as `(true, none)`, because Python's `b64decode` discards the space
before the padding check. -/
theorem c1_counterexample :
    b64Val ' ' = none ∧ ' ' ∈ "aG k=".data ∧ ' ' ≠ '=' ∧
    validate_base64_string (fun _ => Except.ok ()) "aG k=".data = (true, none) := by
  decide

/-- C1 (amended): whenever Python's (lenient) Base64 decode of the string
fails — bad padding after discarding non-alphabet characters, or non-ASCII
input — the Base64 validator returns `valid=false` with an error message
embedding the decode error. -/
theorem c1_decode_failure_invalid (imageOk : List Nat → Except (List Char) Unit)
    (s e : List Char) (h : pyB64Decode s = .error e) :
    validate_base64_string imageOk s =
      (false, some ("Invalid Base64 string or not a valid image: ".data ++ e)) := by
  unfold validate_base64_string
  simp [h]

/-- C1 (witness): `"abc"` has bad padding and is rejected. -/
theorem c1_witness :
    validate_base64_string (fun _ => Except.ok ()) "abc".data =
      (false, some ("Invalid Base64 string or not a valid image: ".data
                    ++ "Incorrect padding".data)) :=
  c1_decode_failure_invalid _ _ _ (by decide)

set_option maxRecDepth 8000 in
/-- C2 (counterexample): decoding PNG-format data with the caller-supplied
filename `"photo.txt"` does not keep that filename: the final filename is
`"photo_abcd1234.png"` — the `.txt` suffix is stripped and the derived
extension `.png` replaces it. -/
theorem c2_counterexample :
    ((decode_base64_to_image (fun _ => Except.ok ())
        (fun _ => Except.ok ⟨some "PNG".data⟩) (fun _ _ => Except.ok [137])
        "abcd1234-efgh".data [] "aGk=".data
        (some "photo.txt".data)).2.data.map DecodeData.filename)
      = some "photo_abcd1234.png".data ∧
    pathSuffix "photo_abcd1234.png".data = ".png".data ∧
    pathSuffix "photo.txt".data = ".txt".data := by
  decide

/-- C2 (amended): the filename-resolution step of Decode keeps a supplied
filename with a suffix as-is — the derived extension only fills in a missing
suffix there; the subsequent `generate_unique_filename` call, however,
replaces that suffix with the derived extension in the final filename. -/
theorem c2_resolution_keeps_suffix (f ext : List Char) (h : pathSuffix f ≠ []) :
    resolveFilename (some f) ext = f := by
  have hf : f ≠ [] := by
    intro h0
    subst h0
    exact h (by decide)
  simp [resolveFilename, hf, h]

/-- C2 (witness): `"photo.txt"` passes the resolution step unchanged. -/
theorem c2_witness :
    resolveFilename (some "photo.txt".data) ".png".data = "photo.txt".data :=
  c2_resolution_keeps_suffix _ _ (by decide)

/-- C3: every successful Decode reports (and writes under) a filename of the
form `stem ++ "_" ++ 8-char-id ++ derived-extension`: the supplied filename's
suffix is stripped by `generate_unique_filename` and the extension derived
from the decoded image's detected format is appended after the unique id, so
the final filename always ends with the derived extension. -/
theorem c3_final_extension (imageOk : List Nat → Except (List Char) Unit)
    (imageOpen : List Nat → Except (List Char) PILImage)
    (saveImage : PILImage → List Nat → Except (List Char) (List Nat))
    (uuidStr : List Char) (fs : FS) (s : List Char) (fn : Option (List Char))
    (h8 : 8 ≤ uuidStr.length)
    (hsucc : (decode_base64_to_image imageOk imageOpen saveImage uuidStr fs s fn).2.success
              = true) :
    ∃ bytes image, pyB64Decode s = .ok bytes ∧ imageOpen bytes = .ok image ∧
      ∃ d, (decode_base64_to_image imageOk imageOpen saveImage uuidStr fs s fn).2.data
             = some d ∧
        d.filename = pathStem (sanitize_filename
              (resolveFilename fn (get_extension_from_format (formatOrPNG image))))
            ++ '_' :: uuidStr.take 8 ++ get_extension_from_format (formatOrPNG image) ∧
        (uuidStr.take 8).length = 8 ∧
        get_extension_from_format (formatOrPNG image) <:+ d.filename ∧
        d.file_path = "outputs/".data ++ d.filename := by
  obtain ⟨bytes, image, written, hval, hdec, hopen, hsave⟩ := decode_success_inv hsucc
  refine ⟨bytes, image, hdec, hopen, ?_⟩
  rw [decode_success uuidStr fs fn hval hdec hopen hsave]
  refine ⟨_, rfl, generate_unique_eq _ _ _, ?_, suffix_generate_unique _ _ _, rfl⟩
  simp only [List.length_take]
  omega

set_option maxRecDepth 8000 in
set_option maxHeartbeats 1000000 in
/-- C3 (witness): decoding PNG data with filename `"photo.txt"` and id prefix
`"abcd1234"` yields `"photo_abcd1234.png"`. -/
theorem c3_witness :
    ∃ bytes image, pyB64Decode "aGk=".data = .ok bytes ∧
      (fun _ : List Nat => Except.ok (ε := List Char) (⟨some "PNG".data⟩ : PILImage)) bytes
        = .ok image ∧
      ∃ d, (decode_base64_to_image (fun _ => Except.ok ())
              (fun _ => Except.ok ⟨some "PNG".data⟩) (fun _ _ => Except.ok [137])
              "abcd1234-efgh".data [] "aGk=".data
              (some "photo.txt".data)).2.data = some d ∧
        d.filename = pathStem (sanitize_filename (resolveFilename (some "photo.txt".data)
              (get_extension_from_format (formatOrPNG image))))
            ++ '_' :: "abcd1234-efgh".data.take 8
            ++ get_extension_from_format (formatOrPNG image) ∧
        ("abcd1234-efgh".data.take 8).length = 8 ∧
        get_extension_from_format (formatOrPNG image) <:+ d.filename ∧
        d.file_path = "outputs/".data ++ d.filename :=
  c3_final_extension (fun _ => Except.ok ()) (fun _ => Except.ok ⟨some "PNG".data⟩)
    (fun _ _ => Except.ok [137]) "abcd1234-efgh".data [] "aGk=".data
    (some "photo.txt".data) (by decide) (by decide)

/-- C4: for every byte string accepted by the Image Validator, Encode
succeeds and its `base64_string` decodes (with Python's `b64decode`) to
exactly the original bytes. -/
theorem c4_encode_roundtrip (imageOk : List Nat → Except (List Char) Unit)
    (fs : FS) (content : List Nat) (filename : List Char)
    (hbytes : ∀ b ∈ content, b < 256)
    (hvalid : (validate_image_file imageOk content filename).1 = true) :
    ∃ d, (encode_image_to_base64 imageOk fs content filename).2
          = { success := true, error := none, data := some d } ∧
      pyB64Decode d.base64_string = .ok content ∧
      d.original_filename = filename ∧ d.file_size = content.length := by
  refine ⟨⟨b64encode content, filename, content.length⟩, ?_,
    pyB64Decode_b64encode content hbytes, rfl, rfl⟩
  unfold encode_image_to_base64
  simp [hvalid]

/-- C4 (witness): the two bytes `[104, 105]` under filename `"a.png"` encode
to `"aGk="` and decode back byte-exactly. -/
theorem c4_witness :
    ∃ d, (encode_image_to_base64 (fun _ => Except.ok ()) [] [104, 105] "a.png".data).2
          = { success := true, error := none, data := some d } ∧
      pyB64Decode d.base64_string = .ok [104, 105] ∧
      d.original_filename = "a.png".data ∧ d.file_size = [104, 105].length :=
  c4_encode_roundtrip (fun _ => Except.ok ()) [] [104, 105] "a.png".data
    (by decide) (by decide)

/-- C5: every result of Encode and Decode satisfies the `ConversionResult`
invariant — success populates the data and leaves the error absent, failure
populates the error and leaves the data absent. -/
theorem c5_result_invariant (imageOk imageOk2 : List Nat → Except (List Char) Unit)
    (imageOpen : List Nat → Except (List Char) PILImage)
    (saveImage : PILImage → List Nat → Except (List Char) (List Nat))
    (uuidStr : List Char) (fs fs2 : FS) (content : List Nat) (filename : List Char)
    (s : List Char) (fn : Option (List Char)) :
    resultOk (encode_image_to_base64 imageOk fs content filename).2 ∧
    resultOk (decode_base64_to_image imageOk2 imageOpen saveImage uuidStr fs2 s fn).2 :=
  ⟨encode_resultOk imageOk fs content filename,
   decode_resultOk imageOk2 imageOpen saveImage uuidStr fs2 s fn⟩

/-- C6: the operations are total at their boundary: every raise inside the
Decode body (modelled as `Except.error`) is caught and turned into a
`success=false` result carrying a message, nothing escapes, and a failed
result of either operation always carries an error message. -/
theorem c6_exceptions_caught (imageOk : List Nat → Except (List Char) Unit)
    (imageOpen : List Nat → Except (List Char) PILImage)
    (saveImage : PILImage → List Nat → Except (List Char) (List Nat))
    (uuidStr : List Char) (fs : FS) (s : List Char) (fn : Option (List Char))
    (imageOkE : List Nat → Except (List Char) Unit) (fsE : FS)
    (content : List Nat) (filename : List Char) :
    (∀ e, decodeBody imageOk imageOpen saveImage uuidStr fs s fn = .error e →
      decode_base64_to_image imageOk imageOpen saveImage uuidStr fs s fn
        = (fs, { success := false,
                 error := some ("Error decoding Base64 to image: ".data ++ e),
                 data := none })) ∧
    ((decode_base64_to_image imageOk imageOpen saveImage uuidStr fs s fn).2.success = false →
      ∃ m, (decode_base64_to_image imageOk imageOpen saveImage uuidStr fs s fn).2.error
            = some m) ∧
    ((encode_image_to_base64 imageOkE fsE content filename).2.success = false →
      ∃ m, (encode_image_to_base64 imageOkE fsE content filename).2.error = some m) := by
  refine ⟨?_, ?_, ?_⟩
  · intro e he
    unfold decode_base64_to_image
    rw [he]
  · intro hf
    rcases decode_resultOk imageOk imageOpen saveImage uuidStr fs s fn with
      ⟨h1, _, _⟩ | ⟨_, h2, _⟩
    · simp [h1] at hf
    · exact Option.isSome_iff_exists.1 h2
  · intro hf
    rcases encode_resultOk imageOkE fsE content filename with ⟨h1, _, _⟩ | ⟨_, h2, _⟩
    · simp [h1] at hf
    · exact Option.isSome_iff_exists.1 h2

/-- C6 (witness): a raising `image.save` ("disk full") is caught and surfaced
as a `success=false` result with the service's error prefix. -/
theorem c6_witness :
    decode_base64_to_image (fun _ => Except.ok ()) (fun _ => Except.ok ⟨some "PNG".data⟩)
      (fun _ _ => Except.error "disk full".data) "abcd1234-efgh".data [] "aGk=".data none
      = ([], { success := false,
               error := some ("Error decoding Base64 to image: ".data ++ "disk full".data),
               data := none }) :=
  (c6_exceptions_caught (fun _ => Except.ok ()) (fun _ => Except.ok ⟨some "PNG".data⟩)
      (fun _ _ => Except.error "disk full".data) "abcd1234-efgh".data [] "aGk=".data none
      (fun _ => Except.ok ()) [] [] []).1 "disk full".data (by decide)

set_option maxRecDepth 10000 in
/-- C7 (counterexample): `sanitize` is not idempotent.  For the 107-character
input of 95 dots, an `a`, a dot and ten `x`s, the first sanitization
truncates to a 106-character string whose stem prefix is all dots, and the
second application truncates again to 95 dots. -/
theorem c7_counterexample :
    sanitize_filename (sanitize_filename
        (List.replicate 95 '.' ++ 'a' :: '.' :: List.replicate 10 'x'))
      ≠ sanitize_filename (List.replicate 95 '.' ++ 'a' :: '.' :: List.replicate 10 'x') := by
  decide

/-- C7 (amended): `sanitize` is idempotent on every input whose sanitized
form is at most 100 characters (in particular whenever the truncation rule
leaves the result within the bound); only inputs whose first sanitization
still exceeds 100 characters can shrink further on a second application. -/
theorem c7_idempotent_bounded (x : List Char)
    (h : (sanitize_filename x).length ≤ 100) :
    sanitize_filename (sanitize_filename x) = sanitize_filename x :=
  sanitize_eq_of_fixed (replaceDangerous_sanitize x) h

/-- C7 (witness): a short input with a dangerous character is a fixpoint
after one pass. -/
theorem c7_witness :
    sanitize_filename (sanitize_filename "a<b.txt".data)
      = sanitize_filename "a<b.txt".data :=
  c7_idempotent_bounded "a<b.txt".data (by decide)

/-- C8: no dangerous character (`< > : " | ? * \ /`) survives
`sanitize_filename`: each is replaced by an underscore and the truncation
step only keeps characters of the replaced string. -/
theorem c8_no_dangerous (x : List Char) (c : Char) (hc : c ∈ dangerous_chars) :
    c ∉ sanitize_filename x :=
  sanitize_no_dangerous x c hc

/-- C8 (witness): `<` is dangerous and absent from `sanitize("a<b")`. -/
theorem c8_witness : '<' ∈ dangerous_chars ∧ '<' ∉ sanitize_filename "a<b".data :=
  ⟨by decide, c8_no_dangerous "a<b".data '<' (by decide)⟩

/-- C9: the format-to-extension table maps JPEG/PNG/GIF/BMP/TIFF/WEBP to
`.jpg`/`.png`/`.gif`/`.bmp`/`.tiff`/`.webp`, any other (upper-cased) format
falls back to `.png`, the upload allow-list is exactly
`{.jpg, .jpeg, .png, .gif, .bmp, .tiff}`, and `.webp` is a possible decode
output extension that the allow-list rejects. -/
theorem c9_extension_tables :
    get_extension_from_format "JPEG".data = ".jpg".data ∧
    get_extension_from_format "PNG".data = ".png".data ∧
    get_extension_from_format "GIF".data = ".gif".data ∧
    get_extension_from_format "BMP".data = ".bmp".data ∧
    get_extension_from_format "TIFF".data = ".tiff".data ∧
    get_extension_from_format "WEBP".data = ".webp".data ∧
    (∀ s : List Char, upperStr s ∉ format_to_extension.map Prod.fst →
      get_extension_from_format s = ".png".data) ∧
    allowed_extensions = [".jpg".data, ".jpeg".data, ".png".data, ".gif".data,
                          ".bmp".data, ".tiff".data] ∧
    ".webp".data ∉ allowed_extensions ∧
    get_extension_from_format "WEBP".data ∉ allowed_extensions := by
  refine ⟨by decide, by decide, by decide, by decide, by decide, by decide, ?_, rfl,
    by decide, by decide⟩
  intro s hs
  have hnone : format_to_extension.find? (fun p => p.1 = upperStr s) = none := by
    rw [List.find?_eq_none]
    intro x hx
    simp only [decide_eq_true_eq]
    exact fun heq => hs (heq ▸ List.mem_map_of_mem Prod.fst hx)
  unfold get_extension_from_format
  rw [hnone]

/-- C9 (witness): Pillow's `"MPO"` format is outside the table and falls
back to `.png`. -/
theorem c9_witness :
    upperStr "MPO".data ∉ format_to_extension.map Prod.fst ∧
    get_extension_from_format "MPO".data = ".png".data :=
  ⟨by decide, c9_extension_tables.2.2.2.2.2.2.1 "MPO".data (by decide)⟩

/-- C10: Encode has no side effects beyond validation — the filesystem it
runs against is returned unchanged and its result does not depend on that
filesystem (it only reads and transforms its arguments), whether it succeeds
or fails. -/
theorem c10_encode_pure (imageOk : List Nat → Except (List Char) Unit)
    (fs fs2 : FS) (content : List Nat) (filename : List Char) :
    (encode_image_to_base64 imageOk fs content filename).1 = fs ∧
    (encode_image_to_base64 imageOk fs content filename).2
      = (encode_image_to_base64 imageOk fs2 content filename).2 := by
  unfold encode_image_to_base64
  by_cases hv : (validate_image_file imageOk content filename).1 <;> simp [hv]

example : pathSuffix "photo.txt".data = ".txt".data := by decide
example : pathSuffix ".bashrc".data = [] := by decide
example : pathStem "a/b.txt".data = "b".data := by decide
example : splitextPy "..a".data = ("..a".data, []) := by decide
example : splitextPy "a.".data = ("a".data, ".".data) := by decide
example : sanitize_filename "a<b".data = "a_b".data := by decide
example : get_extension_from_format "jpeg".data = ".jpg".data := by decide
example : get_extension_from_format "MPO".data = ".png".data := by decide
example : generate_unique_filename "abcd1234-efgh".data "photo.txt".data (some ".png".data)
    = "photo_abcd1234.png".data := by decide
example : pyB64Decode "aGk=".data = .ok [104, 105] := by decide
example : pyB64Decode "aG k=".data = .ok [104, 105] := by decide
example : pyB64Decode "abc".data = .error "Incorrect padding".data := by decide
example : b64encode [104, 105] = "aGk=".data := by decide
example : pyB64Decode (b64encode [0, 1, 2, 3]) = .ok [0, 1, 2, 3] := by decide
